import Mathlib

/-!
Shallow embedding of the core of the deciresearch repository:

* `src/src/intelligence/error-recovery.ts` — retry executor, batch executor,
  circuit breaker (`ErrorRecovery.executeWithRetry`, `ErrorRecovery.executeBatch`,
  `createCircuitBreaker`);
* `src/src/shared/rate-limits.ts` — `RateLimitManager` sliding-window rate
  governor (`checkLimit`, `recordCall`, `getWaitTime`, `waitForAnthropicSlot`);
* `src/unnamed/part_011` — `AccountDiscovery` candidate pipeline
  (`discoverAccountsFromNetwork`, `scoreAccountCandidates`, `rejectAccount`,
  `autoApproveConfirmed`, `pruneCandidates`);
* `src/unnamed/part_010` / `src/unnamed/part_012` — `ConsensusSignals.detectConsensus`
  and the two identical `getAccountCredibility` helpers.

Machine numbers in the source are JS numbers used as integer millisecond
timestamps and small integer counters; they are modelled as `Nat`/`Int`
(with `Int` wherever the source can produce a negative intermediate value);
the handful of fractional quantities (average credibility, velocities,
percentages) are modelled as `ℚ`.  Asynchrony is sequentialised: an `async`
method is a pure state-transformer, a `sleep` advances an explicit clock,
and the environment (Twitter, the vector DB, the LLM) is an explicit input.
Logging and the log-throttling state (`shouldAlert`, `lastAlertTime`) have no
effect on any value the claims mention and are elided.
-/

namespace DeciResearch

/-! ### Circuit breaker (`createCircuitBreaker`, error-recovery.ts lines 100–155) -/

/-- The `state` variable of a breaker: `'closed' | 'open' | 'half-open'`. -/
inductive CircuitState
  | closed
  | opened
  | halfOpen
deriving DecidableEq, Repr

/-- The three mutable variables captured by the closure returned by
`createCircuitBreaker`. -/
structure Breaker where
  failureCount : Nat
  lastFailureTime : Nat
  state : CircuitState
deriving DecidableEq, Repr

/-- The behaviour of the wrapped `fn` when it is invoked: it either resolves
with a value or rejects (throws). -/
inductive CallOutcome (α : Type)
  | success (v : α)
  | failure
deriving DecidableEq, Repr

/-- How one call to `execute` terminates: it returns a value (`some v` for a
successful underlying call, `none` for the `null` circuit-open sentinel), or it
re-throws the underlying error. -/
inductive ExecResult (α : Type)
  | returned (v : Option α)
  | threw
deriving DecidableEq, Repr

/-- Result of one `execute` step: the returned/thrown outcome, the breaker
state afterwards, and whether the wrapped `fn` was actually invoked. -/
structure ExecOut (α : Type) where
  result : ExecResult α
  breaker : Breaker
  invoked : Bool
deriving DecidableEq, Repr

/-- The `try`/`catch` body of `execute` (error-recovery.ts lines 124–142),
entered once the open-state guard has been passed; `b.state` here is the state
after a possible transition to half-open. -/
def tryCall (failureThreshold : Nat) (b : Breaker) (now : Nat)
    (outcome : CallOutcome α) : ExecOut α :=
  match outcome with
  | .success v =>
      if b.state = CircuitState.halfOpen then
        ⟨.returned (some v), { b with state := CircuitState.closed, failureCount := 0 }, true⟩
      else
        ⟨.returned (some v), b, true⟩
  | .failure =>
      let fc := b.failureCount + 1
      ⟨.threw,
       { failureCount := fc, lastFailureTime := now,
         state := if failureThreshold ≤ fc then CircuitState.opened else b.state },
       true⟩

/-- One call to the breaker's `execute` (error-recovery.ts lines 109–143).
`now` is `Date.now()` at the moment of the call; `outcome` is how the wrapped
`fn` would behave if invoked.  The source compares
`Date.now() - lastFailureTime > resetTimeoutMs`; when `now < lastFailureTime`
the JS difference is negative and the comparison is false, which truncated
`Nat` subtraction (giving `0`) reproduces. -/
def execute (failureThreshold resetTimeoutMs : Nat) (b : Breaker) (now : Nat)
    (outcome : CallOutcome α) : ExecOut α :=
  if b.state = CircuitState.opened then
    if resetTimeoutMs < now - b.lastFailureTime then
      tryCall failureThreshold { b with state := CircuitState.halfOpen } now outcome
    else
      ⟨.returned none, b, false⟩
  else
    tryCall failureThreshold b now outcome

/-- The initial breaker created by `createCircuitBreaker`:
`failureCount = 0`, `lastFailureTime = 0`, `state = 'closed'`. -/
def initBreaker : Breaker := ⟨0, 0, CircuitState.closed⟩

/-- Run a sequence of `execute` calls; each event is the call time paired with
the wrapped function's behaviour on that call. -/
def runBreaker (failureThreshold resetTimeoutMs : Nat) (b : Breaker) :
    List (Nat × CallOutcome α) → Breaker
  | [] => b
  | (t, o) :: es =>
      runBreaker failureThreshold resetTimeoutMs
        (execute failureThreshold resetTimeoutMs b t o).breaker es

/-- Whether an event is a failing call. -/
def isFailure : CallOutcome α → Bool
  | .failure => true
  | .success _ => false

/-- Number of failing calls in an event sequence. -/
def failuresIn (es : List (Nat × CallOutcome α)) : Nat :=
  es.countP (fun e => isFailure e.2)

/-! ### Rate governor (`RateLimitManager`, rate-limits.ts)

`callTimestamps : Map<string, number[]>` is modelled as an association list
in insertion order, which is exactly the iteration/update discipline of a JS
`Map` (`set` on an existing key updates in place, otherwise appends). -/

/-- ASCII case-folding of one character, modelling what JS
`String.prototype.toLowerCase` does on the ASCII identifiers this code
handles. -/
def charToLower (c : Char) : Char :=
  if 'A' ≤ c ∧ c ≤ 'Z' then Char.ofNat (c.toNat + 32) else c

/-- `s.toLowerCase()` on ASCII strings. -/
def strToLower (s : String) : String := ⟨s.data.map charToLower⟩

/-- Stable insertion into a sorted list: `a` goes in front of the first
element it is `le`-before-or-equal to. -/
def insertBy {α : Type} (le : α → α → Bool) (a : α) : List α → List α
  | [] => [a]
  | b :: l => if le a b then a :: b :: l else b :: insertBy le a l

/-- Stable sort by a total boolean comparison — the behaviour of JS
`Array.prototype.sort` with a numeric comparator such as
`(a, b) => b.score - a.score`. -/
def sortBy {α : Type} (le : α → α → Bool) : List α → List α
  | [] => []
  | a :: l => insertBy le a (sortBy le l)

/-- Lookup on an insertion-ordered association list, mirroring JS
`Map.prototype.get`. -/
def aLookup {β : Type} : List (String × β) → String → Option β
  | [], _ => none
  | p :: m, k => if p.1 = k then some p.2 else aLookup m k

/-- Assignment on an insertion-ordered association list, mirroring JS
`Map.prototype.set`. -/
def assocSet {β : Type} (m : List (String × β)) (k : String) (v : β) :
    List (String × β) :=
  if m.any (fun p => decide (p.1 = k)) then
    m.map (fun p => if p.1 = k then (k, v) else p)
  else
    m ++ [(k, v)]

/-- The `callTimestamps` map of a `RateLimitManager`. -/
abbrev TsMap := List (String × List Nat)

/-- `this.callTimestamps.get(key) || []` (rate-limits.ts line 128/146/154). -/
def getCalls (m : TsMap) (k : String) : List Nat := (aLookup m k).getD []

/-- Whether a timestamp is inside a window at time `now`; the source's
`t > now - windowMs` filter, computed over `Int` because the JS `windowStart`
can be negative when `now < windowMs`. -/
def inWindow (windowMs now t : Nat) : Bool :=
  decide ((now : Int) - (windowMs : Int) < (t : Int))

/-- `RateLimitManager.checkLimit` (rate-limits.ts lines 120–143).  It filters
the timestamp list into a *local* variable to count the in-window calls and
returns whether `calls.length >= limit` fails to hold; the stored map is
returned unchanged because the source never writes the filtered list back. -/
def checkLimit (m : TsMap) (k : String) (limit windowMs now : Nat) :
    Bool × TsMap :=
  let calls := (getCalls m k).filter (inWindow windowMs now)
  (decide (calls.length < limit), m)

/-- `RateLimitManager.recordCall` (rate-limits.ts lines 153–157): push
`Date.now()` onto the stored list. -/
def recordCall (m : TsMap) (k : String) (now : Nat) : TsMap :=
  assocSet m k (getCalls m k ++ [now])

/-- `RateLimitManager.canTweet` (rate-limits.ts lines 50–52). -/
def canTweet (m : TsMap) (tweetsPerHour now : Nat) : Bool × TsMap :=
  checkLimit m "twitter:tweets" tweetsPerHour 3600000 now

/-- `RateLimitManager.canReply` (rate-limits.ts lines 54–56). -/
def canReply (m : TsMap) (repliesPerHour now : Nat) : Bool × TsMap :=
  checkLimit m "twitter:replies" repliesPerHour 3600000 now

/-- `Math.min(...calls)` over a non-empty list (`0` is never consulted: the
source only evaluates it under a non-emptiness guard). -/
def listMin : List Nat → Nat
  | [] => 0
  | t :: ts => ts.foldl Nat.min t

/-- `RateLimitManager.getWaitTime` (rate-limits.ts lines 145–151):
`Math.max(0, oldestCall + windowMs - Date.now() + 100)` over the *unfiltered*
stored list; `Int.toNat` reproduces the clamp at `0`. -/
def getWaitTime (m : TsMap) (k : String) (windowMs now : Nat) : Nat :=
  let calls := getCalls m k
  if calls.isEmpty then 0
  else ((listMin calls : Int) + (windowMs : Int) - (now : Int) + 100).toNat

/-- `RateLimitManager.waitForAnthropicSlot` (rate-limits.ts lines 85–112),
sequentialised: the function checks the per-minute window, sleeps
`getWaitTime` if it is full, then checks the per-hour window at the new
current time and sleeps again if that one is full.  The result is the value
of `Date.now()` at the moment the method returns; `now` is its value on
entry.  The stored map is never modified (recording happens separately in
`recordAnthropicCall`). -/
def waitForAnthropicSlot (m : TsMap) (callsPerMinute callsPerHour now : Nat) :
    Nat :=
  let canProceedMin := (checkLimit m "anthropic:calls:min" callsPerMinute 60000 now).1
  let t1 := if canProceedMin then now
            else now + getWaitTime m "anthropic:calls:min" 60000 now
  let canProceedHour := (checkLimit m "anthropic:calls:hour" callsPerHour 3600000 t1).1
  if canProceedHour then t1
  else t1 + getWaitTime m "anthropic:calls:hour" 3600000 t1

/-- Number of stored timestamps of `k` that lie inside a window at `now` —
the quantity `checkLimit` compares against `limit`. -/
def inWindowCount (m : TsMap) (k : String) (windowMs now : Nat) : Nat :=
  ((getCalls m k).filter (inWindow windowMs now)).length

/-! ### Account discovery (`AccountDiscovery`, part_011)

The Twitter/LLM environment of a cycle is an explicit input: each mentioned
username comes with the fetched metrics `scoreAccountCandidates` reads
(mention count, follower count, verified flag, account age, like count) and
the category the LLM produced (`none` when categorisation failed, mapped to
the `'NARRATIVE'` default).  Usernames are the already-lowercased mention
strings the source uses as map keys. -/

/-- Candidate `status` values. -/
inductive CStatus
  | suggested
  | approved
  | rejected
  | pruned
deriving DecidableEq, Repr

/-- `DiscoveryCandidate` (part_011 lines 15–23); `reason` is a log string and
is elided. -/
structure DiscoveryCandidate where
  handle : String
  score : Nat
  category : String
  lastSeen : Nat
  confirmationCount : Nat
  status : CStatus
deriving DecidableEq, Repr

/-- The `candidates : Map<string, DiscoveryCandidate>` field. -/
abbrev DMap := List (String × DiscoveryCandidate)

/-- `this.candidates.get(handle)`. -/
def lookupC (st : DMap) (h : String) : Option DiscoveryCandidate := aLookup st h

/-- `this.candidates.set(handle, candidate)`. -/
def setC (st : DMap) (h : String) (c : DiscoveryCandidate) : DMap :=
  assocSet st h c

/-- `DISCOVERY_CONFIG` (part_011 lines 25–31). -/
def scoreThreshold : Nat := 50
def maxNewAccountsPerCycle : Nat := 5
def confirmationRunsNeeded : Nat := 2
def decayDays : Nat := 30

/-- Milliseconds in a day. -/
def dayMs : Nat := 24 * 60 * 60 * 1000

/-- Per-username environment data consumed by one discovery cycle. -/
structure AccountData where
  handle : String
  mentions : Nat
  followers : Nat
  verified : Bool
  ageMs : Nat
  likeCount : Nat
  fetchedCategory : Option String
deriving DecidableEq, Repr

/-- Mention-frequency component: `Math.min(30, mentions * 3)`. -/
def mentionScore (mentions : Nat) : Nat := min 30 (mentions * 3)

/-- Follower-count component (part_011 lines 166–171). -/
def followerScore (followers : Nat) : Nat :=
  if 100000 < followers then 25
  else if 50000 < followers then 20
  else if 10000 < followers then 15
  else if 5000 < followers then 10
  else 0

/-- Account-age component (part_011 lines 184–190); the source compares the
age in (real-valued) days against 365/180/30, equivalent to comparing the age
in milliseconds against the day counts scaled by `dayMs`. -/
def ageScore (ageMs : Nat) : Nat :=
  if 365 * dayMs < ageMs then 15
  else if 180 * dayMs < ageMs then 10
  else if 30 * dayMs < ageMs then 5
  else 0

/-- Engagement component (part_011 lines 197–201). -/
def engagementScore (likeCount : Nat) : Nat :=
  if 1000000 < likeCount then 15
  else if 100000 < likeCount then 10
  else if 10000 < likeCount then 5
  else 0

/-- Total candidate score (sum of the five components; each `if (x > 0)
score += x` guard is the identity when the component is `0`). -/
def computeScore (d : AccountData) : Nat :=
  mentionScore d.mentions + followerScore d.followers +
    (if d.verified then 15 else 0) + ageScore d.ageMs +
    engagementScore d.likeCount

/-- `existing?.confirmationCount || 1` — JS `||` also maps a stored `0` to
`1`. -/
def confirmationOrOne : Option DiscoveryCandidate → Nat
  | some e => if e.confirmationCount = 0 then 1 else e.confirmationCount
  | none => 1

/-- `AccountDiscovery.scoreAccountCandidates` (part_011 lines 133–236): skip
tracked and rejected handles, score the rest, keep scores `≥ scoreThreshold`,
sort descending by score and cap at `maxNewAccountsPerCycle`. -/
def scoreAccountCandidates (st : DMap) (tracked : List String)
    (inputs : List AccountData) (now : Nat) : List DiscoveryCandidate :=
  let scored := inputs.filterMap (fun d =>
    if tracked.contains (strToLower d.handle) then none
    else if (lookupC st d.handle).map (·.status) = some CStatus.rejected then none
    else
      let score := computeScore d
      if scoreThreshold ≤ score then
        some { handle := d.handle, score := score,
               category := d.fetchedCategory.getD "NARRATIVE",
               lastSeen := now,
               confirmationCount := confirmationOrOne (lookupC st d.handle),
               status := CStatus.suggested }
      else none)
  (sortBy (fun a b => decide (b.score ≤ a.score)) scored).take maxNewAccountsPerCycle

/-- Status update applied to every candidate by `pruneCandidates`
(part_011 lines 316–326). -/
def pruneOne (now : Nat) (c : DiscoveryCandidate) : DiscoveryCandidate :=
  if ((decayDays * dayMs : Nat) : Int) < (now : Int) - (c.lastSeen : Int) then
    { c with status := CStatus.pruned }
  else c

/-- `AccountDiscovery.pruneCandidates`: mark every candidate not seen within
`decayDays` as pruned, regardless of its previous status. -/
def pruneCandidates (st : DMap) (now : Nat) : DMap :=
  st.map (fun p => (p.1, pruneOne now p.2))

/-- `AccountDiscovery.discoverAccountsFromNetwork` (part_011 lines 37–84).
`mentioned` is the environment: the data of every username extracted from the
fetched timelines.  `findMentionedAccounts` drops core (tracked) handles and
handles whose candidate is already `approved`; the survivors are scored, the
confirmation counts of the returned candidates are bumped, the candidates map
is updated, and finally `pruneCandidates` runs.  Returns the updated map and
the cycle's returned candidate list. -/
def discoverAccountsFromNetwork (st : DMap) (tracked : List String)
    (mentioned : List AccountData) (now : Nat) :
    DMap × List DiscoveryCandidate :=
  let inputs := mentioned.filter (fun d =>
    !(tracked.contains d.handle) &&
    !(decide ((lookupC st d.handle).map (·.status) = some CStatus.approved)))
  let scored := scoreAccountCandidates st tracked inputs now
  let updated := scored.map (fun c =>
    match lookupC st c.handle with
    | some e => { c with confirmationCount := e.confirmationCount + 1 }
    | none => { c with confirmationCount := 1 })
  let st1 := updated.foldl (fun s c => setC s c.handle c) st
  (pruneCandidates st1 now, updated)

/-- `AccountDiscovery.rejectAccount` (part_011 lines 290–296). -/
def rejectAccount (st : DMap) (h : String) : DMap :=
  match lookupC st h with
  | some c => setC st h { c with status := CStatus.rejected }
  | none => st

/-- `AccountDiscovery.approveAccount` (part_011 lines 280–287) applied to one
candidate record, and the per-candidate test of `autoApproveConfirmed`. -/
def approveOne (c : DiscoveryCandidate) : DiscoveryCandidate :=
  if c.status = CStatus.suggested ∧ confirmationRunsNeeded ≤ c.confirmationCount
  then { c with status := CStatus.approved }
  else c

/-- `AccountDiscovery.autoApproveConfirmed` (part_011 lines 299–313): approve
every `suggested` candidate whose `confirmationCount` has reached
`confirmationRunsNeeded`; returns the new map and the approved handles. -/
def autoApproveConfirmed (st : DMap) : DMap × List String :=
  (st.map (fun p => (p.1, approveOne p.2)),
   st.filterMap (fun p =>
     if p.2.status = CStatus.suggested ∧
        confirmationRunsNeeded ≤ p.2.confirmationCount
     then some p.1 else none))

/-! ### Consensus signals (`ConsensusSignals`, part_010) and credibility
lookup (also `NarrativeShifts.getAccountCredibility`, part_012)

The vector DB is the environment: `getAccountsByCategory` is a function from
a category name to either a thrown error or an account list. -/

/-- A stored tweet as read by `detectConsensus`: handle, timestamp, extracted
topics, sentiment label. -/
structure Tweet where
  handle : String
  timestamp : Nat
  topics : List String
  sentiment : String
deriving DecidableEq, Repr

/-- A tracked account as returned by `vectorDB.getAccountsByCategory`
(only the fields the embedded code reads). -/
structure Account where
  handle : String
  credibilityScore : Nat
deriving DecidableEq, Repr

/-- The category list iterated by both `getAccountCredibility` helpers. -/
def categories : List String := ["NARRATIVE", "TECHNICAL", "SMART_MONEY", "MARKET_STRUCTURE"]

/-- Environment model of `vectorDB.getAccountsByCategory`: `.error ()` when
the query throws. -/
abbrev AccountDB := String → Except Unit (List Account)

/-- The category loop shared verbatim by `ConsensusSignals.getAccountCredibility`
(part_010 lines 142–157) and `NarrativeShifts.getAccountCredibility`
(part_012 lines 255–267): return the credibility of the first
case-insensitive handle match; a thrown query reaches the `catch` and yields
`50`; falling off the end of the loop yields the `50` default. -/
def credLoop (db : AccountDB) (handle : String) : List String → Nat
  | [] => 50
  | cat :: rest =>
      match db cat with
      | .error _ => 50
      | .ok accounts =>
          match accounts.find? (fun a => strToLower a.handle == strToLower handle) with
          | some a => a.credibilityScore
          | none => credLoop db handle rest

/-- `ConsensusSignals.getAccountCredibility` (part_010 lines 142–157). -/
def ConsensusSignals.getAccountCredibility (db : AccountDB) (handle : String) : Nat :=
  credLoop db handle categories

/-- `NarrativeShifts.getAccountCredibility` (part_012 lines 255–267) — its
body is identical to the part_010 version. -/
def NarrativeShifts.getAccountCredibility (db : AccountDB) (handle : String) : Nat :=
  credLoop db handle categories

/-- Insertion-ordered grouping of tweets by handle (the `accountMap` built in
part_010 lines 35–41 with a JS `Map`). -/
def addToGroup (m : List (String × List Tweet)) (t : Tweet) :
    List (String × List Tweet) :=
  if m.any (fun p => decide (p.1 = t.handle)) then
    m.map (fun p => if p.1 = t.handle then (p.1, p.2 ++ [t]) else p)
  else
    m ++ [(t.handle, [t])]

/-- `accountMap` as a fold over the recent tweets in order. -/
def groupByHandle (ts : List Tweet) : List (String × List Tweet) :=
  ts.foldl addToGroup []

/-- The per-theme accumulator of `narrativeMap` (part_010 lines 44–50). -/
structure NarrData where
  accounts : List String
  tweets : List Tweet
  credibilities : List Nat
  firstTime : Nat
  lastTime : Nat
deriving DecidableEq, Repr

/-- `narrativeMap.set(theme, entry)`. -/
def setTheme (nm : List (String × NarrData)) (theme : String) (d : NarrData) :
    List (String × NarrData) :=
  assocSet nm theme d

/-- The fresh entry created when a theme is first seen (part_010 lines
58–66). -/
def emptyNarr (t : Tweet) : NarrData := ⟨[], [], [], t.timestamp, t.timestamp⟩

/-- The mutation applied to a theme entry for one (handle, tweet) pair
(part_010 lines 68–74): push the handle and its credibility on first
appearance, always push the tweet, refresh `lastTime`. -/
def updateEntry (e : NarrData) (h : String) (cred : Nat) (t : Tweet) : NarrData :=
  let e1 := if e.accounts.contains h then e
            else { e with accounts := e.accounts ++ [h],
                          credibilities := e.credibilities ++ [cred] }
  { e1 with tweets := e1.tweets ++ [t], lastTime := max e1.lastTime t.timestamp }

/-- One step of building `narrativeMap`: create-if-absent then update. -/
def updateTheme (nm : List (String × NarrData)) (theme : String) (h : String)
    (cred : Nat) (t : Tweet) : List (String × NarrData) :=
  let e := (aLookup nm theme).getD (emptyNarr t)
  setTheme nm theme (updateEntry e h cred t)

/-- The triple-nested loop of part_010 lines 52–77: over grouped accounts,
their tweets, and each tweet's topics; the credibility of a handle is fetched
once per handle. -/
def buildNarrativeMap (db : AccountDB) (groups : List (String × List Tweet)) :
    List (String × NarrData) :=
  groups.foldl (fun nm p =>
    let cred := ConsensusSignals.getAccountCredibility db p.1
    p.2.foldl (fun nm t =>
      t.topics.foldl (fun nm theme => updateTheme nm theme p.1 cred t) nm) nm) []

/-- Signal confidence tiers. -/
inductive Confidence
  | LOW
  | MEDIUM
  | HIGH
deriving DecidableEq, Repr

/-- Signal momentum labels. -/
inductive Momentum
  | decreasing
  | stable
  | increasing
deriving DecidableEq, Repr

/-- `ConsensusSignal` (part_010 lines 4–16); the `sentiment` record is
flattened into the three percentage fields. -/
structure ConsensusSignal where
  narrative : String
  accountsAgreeing : List String
  accountCount : Nat
  avgCredibility : ℚ
  unusualConsensus : Bool
  confidence : Confidence
  firstMentioned : Nat
  lastMentioned : Nat
  momentum : Momentum
  mentionVelocity : ℚ
  bullishPct : ℚ
  bearishPct : ℚ
  neutralPct : ℚ
deriving DecidableEq, Repr

/-- Building one signal from a qualifying `narrativeMap` entry (part_010
lines 88–129). -/
def mkSignal (narrative : String) (d : NarrData) : ConsensusSignal :=
  let avgCredibility : ℚ := Rat.divInt (d.credibilities.sum : Int) (d.credibilities.length : Int)
  let confidence :=
    if (85 : ℚ) ≤ avgCredibility then Confidence.HIGH
    else if (70 : ℚ) ≤ avgCredibility then Confidence.MEDIUM
    else Confidence.LOW
  let timeSpan : ℚ := ((d.lastTime : ℚ) - (d.firstTime : ℚ)) / ((1000 * 60 * 60 : Nat) : ℚ)
  let mentionVelocity : ℚ := if 0 < timeSpan then (d.tweets.length : ℚ) / timeSpan else 0
  let midpoint : ℚ := (d.firstTime : ℚ) + ((d.lastTime : ℚ) - (d.firstTime : ℚ)) / 2
  let firstHalf := (d.tweets.filter (fun t => decide ((t.timestamp : ℚ) ≤ midpoint))).length
  let secondHalf := (d.tweets.filter (fun t => decide (midpoint < (t.timestamp : ℚ)))).length
  let momentum :=
    if (firstHalf : ℚ) * (12 / 10) < (secondHalf : ℚ) then Momentum.increasing
    else if (secondHalf : ℚ) < (firstHalf : ℚ) * (8 / 10) then Momentum.decreasing
    else Momentum.stable
  let bullish := (d.tweets.filter (fun t => t.sentiment == "bullish")).length
  let bearish := (d.tweets.filter (fun t => t.sentiment == "bearish")).length
  let neutral := (d.tweets.filter (fun t => t.sentiment == "neutral")).length
  { narrative := narrative,
    accountsAgreeing := d.accounts,
    accountCount := d.accounts.length,
    avgCredibility := avgCredibility,
    unusualConsensus := decide (5 ≤ d.accounts.length),
    confidence := confidence,
    firstMentioned := d.firstTime,
    lastMentioned := d.lastTime,
    momentum := momentum,
    mentionVelocity := mentionVelocity,
    bullishPct := (bullish : ℚ) / (d.tweets.length : ℚ) * 100,
    bearishPct := (bearish : ℚ) / (d.tweets.length : ℚ) * 100,
    neutralPct := (neutral : ℚ) / (d.tweets.length : ℚ) * 100 }

/-- `ConsensusSignals.detectConsensus` (part_010 lines 19–140).  `tweets` is
what `vectorDB.getTweetsByTopic(query)` returned, `now` is `Date.now()`.
Entries with fewer than 5 distinct accounts are dropped; survivors are sorted
by descending account count (stable, like the JS comparator sort). -/
def detectConsensus (db : AccountDB) (tweets : List Tweet) (now : Nat)
    (timeWindowHours : Nat) : List ConsensusSignal :=
  let timeWindow := timeWindowHours * 60 * 60 * 1000
  let recent := tweets.filter (fun t =>
    decide ((now : Int) - (timeWindow : Int) < (t.timestamp : Int)))
  if recent.isEmpty then []
  else
    let nm := buildNarrativeMap db (groupByHandle recent)
    let signals := nm.filterMap (fun p =>
      if p.2.accounts.length < 5 then none else some (mkSignal p.1 p.2))
    sortBy (fun a b => decide (b.accountCount ≤ a.accountCount)) signals

/-! ### Retry and batch execution (`ErrorRecovery`, error-recovery.ts)

The wrapped `fn` is modelled by its behaviour on each attempt: a function
from the 1-based attempt number to success-with-value or throw.  Backoff
delays, jitter and logging affect neither the returned value nor the number
of invocations and are elided. -/

/-- The retry loop of `executeWithRetry` from a given attempt number with a
given number of attempts remaining; returns the result (`none` is the
terminal-failure `null`) and how many times `fn` was invoked. -/
def retryFrom {α : Type} (outcomes : Nat → Except Unit α) (attempt : Nat) :
    Nat → Option α × Nat
  | 0 => (none, 0)
  | remaining + 1 =>
      match outcomes attempt with
      | .ok v => (some v, 1)
      | .error _ =>
          let rest := retryFrom outcomes (attempt + 1) remaining
          (rest.1, rest.2 + 1)

/-- `ErrorRecovery.executeWithRetry` (error-recovery.ts lines 20–62): the
`for (attempt = 1; attempt <= maxAttempts; ...)` loop, returning the first
successful result, or `null` after the last attempt failed.  Every throw is
caught inside the loop — nothing propagates. -/
def executeWithRetry {α : Type} (outcomes : Nat → Except Unit α)
    (maxAttempts : Nat) : Option α × Nat :=
  retryFrom outcomes 1 maxAttempts

/-- The record returned by `executeBatch`. -/
structure BatchResult where
  succeeded : Nat
  failed : Nat
  errors : List String
deriving DecidableEq, Repr

/-- `ErrorRecovery.executeBatch` (error-recovery.ts lines 64–97): run
`executeWithRetry` on every item in order; `null` increments `failed`, any
other result (including `undefined` from a `void` item) increments
`succeeded`.  `errors` is initialised empty and never pushed to. -/
def executeBatch (maxAttempts : Nat)
    (items : List (Nat → Except Unit Unit)) : BatchResult :=
  items.foldl (fun acc it =>
    match (executeWithRetry it maxAttempts).1 with
    | none => { acc with failed := acc.failed + 1 }
    | some _ => { acc with succeeded := acc.succeeded + 1 })
    ⟨0, 0, []⟩

/-! ### Helper lemmas about the JS-`Map` model -/

theorem aLookup_map_ne {β : Type} (m : List (String × β)) (k k' : String)
    (v : β) (hne : k' ≠ k) :
    aLookup (m.map (fun p => if p.1 = k then (k, v) else p)) k' = aLookup m k' := by
  induction m with
  | nil => rfl
  | cons p m ih =>
      by_cases hp : p.1 = k
      · have hk : ¬ (k : String) = k' := fun hh => hne hh.symm
        have hpk : ¬ p.1 = k' := hp ▸ hk
        simp only [List.map_cons, aLookup, hp, if_true, hk, if_false, hpk]
        exact ih
      · simp only [List.map_cons, if_neg hp, aLookup]
        rw [ih]

theorem aLookup_assocSet {β : Type} (m : List (String × β)) (k k' : String) (v : β) :
    aLookup (assocSet m k v) k' = if k' = k then some v else aLookup m k' := by
  induction m with
  | nil =>
      by_cases h : k' = k
      · simp [assocSet, aLookup, h]
      · have h2 : ¬ (k : String) = k' := fun hh => h hh.symm
        simp [assocSet, aLookup, h, h2]
  | cons p m ih =>
      by_cases hp : p.1 = k
      · have hany : ((p :: m).any (fun q => decide (q.1 = k))) = true := by
          simp [List.any_cons, hp]
        by_cases hk : k' = k
        · simp [assocSet, hany, aLookup, hp, hk]
        · have hkk : ¬ (k : String) = k' := fun hh => hk hh.symm
          have hpk : ¬ p.1 = k' := hp ▸ hkk
          simp only [assocSet, hany, if_true, List.map_cons, hp, aLookup, hkk, if_false,
            if_neg hk, hpk]
          exact aLookup_map_ne m k k' v hk
      · have hstep : assocSet (p :: m) k v = p :: assocSet m k v := by
          by_cases hm : (m.any (fun q => decide (q.1 = k))) = true
          · simp [assocSet, List.any_cons, hp, hm]
          · simp [assocSet, List.any_cons, hp, hm]
        rw [hstep]
        by_cases hq : p.1 = k'
        · have hk : ¬ k' = k := fun h => hp (hq.trans h)
          simp [aLookup, hq, hk]
        · simp only [aLookup, hq, if_false]
          exact ih

theorem aLookup_mapVal {β γ : Type} (f : β → γ) (m : List (String × β)) (k : String) :
    aLookup (m.map (fun p => (p.1, f p.2))) k = (aLookup m k).map f := by
  induction m with
  | nil => rfl
  | cons p m ih =>
      by_cases hp : p.1 = k
      · simp [aLookup, hp]
      · simp [aLookup, hp, ih]

theorem aLookup_foldl_setC_ne (l : List DiscoveryCandidate) (st : DMap) (h : String)
    (hl : ∀ c ∈ l, c.handle ≠ h) :
    aLookup (l.foldl (fun s c => setC s c.handle c) st) h = aLookup st h := by
  induction l generalizing st with
  | nil => rfl
  | cons c l ih =>
      rw [List.foldl_cons, ih _ (fun c' hc' => hl c' (List.mem_cons_of_mem _ hc'))]
      rw [setC, aLookup_assocSet]
      exact if_neg (fun hh => hl c (List.mem_cons_self _ _) hh.symm)

theorem aLookup_foldl_setC_cases (l : List DiscoveryCandidate) (st : DMap) (h : String)
    (c1 : DiscoveryCandidate)
    (hres : aLookup (l.foldl (fun s c => setC s c.handle c) st) h = some c1) :
    c1 ∈ l ∨ aLookup st h = some c1 := by
  induction l generalizing st with
  | nil => exact Or.inr hres
  | cons c l ih =>
      rw [List.foldl_cons] at hres
      rcases ih _ hres with hmem | hlk
      · exact Or.inl (List.mem_cons_of_mem _ hmem)
      · rw [setC, aLookup_assocSet] at hlk
        by_cases hh : h = c.handle
        · rw [if_pos hh] at hlk
          exact Or.inl (by rw [← Option.some_inj.mp hlk]; exact List.mem_cons_self _ _)
        · rw [if_neg hh] at hlk
          exact Or.inr hlk

/-! ### Helper lemmas about the circuit breaker, retry loop and discovery -/

theorem runBreaker_append {α : Type} (F R : Nat) (b : Breaker)
    (es es' : List (Nat × CallOutcome α)) :
    runBreaker F R b (es ++ es') = runBreaker F R (runBreaker F R b es) es' := by
  induction es generalizing b with
  | nil => rfl
  | cons e es ih =>
      obtain ⟨t, o⟩ := e
      simp only [List.cons_append, runBreaker]
      exact ih _

theorem failuresIn_cons {α : Type} (t : Nat) (o : CallOutcome α)
    (es : List (Nat × CallOutcome α)) :
    failuresIn ((t, o) :: es) = failuresIn es + (if isFailure o then 1 else 0) := by
  simp [failuresIn, List.countP_cons]

theorem runBreaker_closed {α : Type} (F R : Nat) (es : List (Nat × CallOutcome α)) :
    ∀ b : Breaker, b.state = CircuitState.closed → b.failureCount + failuresIn es < F →
      (runBreaker F R b es).state = CircuitState.closed ∧
      (runBreaker F R b es).failureCount = b.failureCount + failuresIn es := by
  induction es with
  | nil =>
      intro b h1 h2
      exact ⟨h1, by simp [runBreaker, failuresIn]⟩
  | cons e es ih =>
      intro b h1 h2
      obtain ⟨t, o⟩ := e
      rw [failuresIn_cons] at h2
      cases o with
      | success v =>
          have hexec : (execute F R b t (CallOutcome.success v)).breaker = b := by
            simp [execute, tryCall, h1]
          simp only [runBreaker, hexec, failuresIn_cons, isFailure]
          have := ih b h1 (by omega)
          simpa using this
      | failure =>
          have hlt : ¬ F ≤ b.failureCount + 1 := by
            simp only [isFailure, if_true] at h2
            omega
          have hexec : (execute F R b t (CallOutcome.failure : CallOutcome α)).breaker =
              ⟨b.failureCount + 1, t, CircuitState.closed⟩ := by
            simp [execute, tryCall, h1, hlt]
          simp only [runBreaker, hexec, failuresIn_cons, isFailure]
          have := ih ⟨b.failureCount + 1, t, CircuitState.closed⟩ rfl
            (by simp only [isFailure, if_true] at h2 ⊢; omega)
          refine ⟨this.1, ?_⟩
          rw [this.2]
          simp only [isFailure, if_true]
          omega

theorem retryFrom_allFail {α : Type} (outcomes : Nat → Except Unit α) :
    ∀ (r a : Nat), (∀ j, j < r → outcomes (a + j) = Except.error ()) →
      retryFrom outcomes a r = (none, r) := by
  intro r
  induction r with
  | zero => intro a _; rfl
  | succ r ih =>
      intro a h
      have h0 : outcomes a = Except.error () := by simpa using h 0 (Nat.succ_pos r)
      have hrest := ih (a + 1) (fun j hj => by
        have := h (j + 1) (Nat.succ_lt_succ hj)
        rwa [Nat.add_comm j 1, ← Nat.add_assoc] at this)
      simp [retryFrom, h0, hrest]

theorem retryFrom_firstOk {α : Type} (outcomes : Nat → Except Unit α) (v : α) :
    ∀ (j a r : Nat), j < r → outcomes (a + j) = Except.ok v →
      (∀ i, i < j → outcomes (a + i) = Except.error ()) →
      retryFrom outcomes a r = (some v, j + 1) := by
  intro j
  induction j with
  | zero =>
      intro a r hr hok _
      obtain ⟨r', rfl⟩ : ∃ r', r = r' + 1 := ⟨r - 1, by omega⟩
      have h0 : outcomes a = Except.ok v := by simpa using hok
      simp [retryFrom, h0]
  | succ j ih =>
      intro a r hr hok herr
      obtain ⟨r', rfl⟩ : ∃ r', r = r' + 1 := ⟨r - 1, by omega⟩
      have h0 : outcomes a = Except.error () := by simpa using herr 0 (Nat.succ_pos j)
      have hrest := ih (a + 1) r' (by omega)
        (by rwa [Nat.add_comm j 1, ← Nat.add_assoc] at hok)
        (fun i hi => by
          have := herr (i + 1) (Nat.succ_lt_succ hi)
          rwa [Nat.add_comm i 1, ← Nat.add_assoc] at this)
      simp [retryFrom, h0, hrest]

theorem mem_insertBy {α : Type} (le : α → α → Bool) (a x : α) (l : List α) :
    x ∈ insertBy le a l ↔ x = a ∨ x ∈ l := by
  induction l with
  | nil => simp [insertBy]
  | cons b l ih =>
      by_cases hle : le a b = true
      · simp [insertBy, hle]
      · simp only [insertBy, if_neg hle, List.mem_cons, ih]
        tauto

theorem mem_sortBy {α : Type} (le : α → α → Bool) (x : α) (l : List α) :
    x ∈ sortBy le l ↔ x ∈ l := by
  induction l with
  | nil => simp [sortBy]
  | cons a l ih =>
      simp [sortBy, mem_insertBy, ih]

theorem mem_scoreAccountCandidates {st : DMap} {tracked : List String}
    {inputs : List AccountData} {now : Nat} {cand : DiscoveryCandidate}
    (hc : cand ∈ scoreAccountCandidates st tracked inputs now) :
    cand.status = CStatus.suggested ∧
      ¬ (aLookup st cand.handle).map (·.status) = some CStatus.rejected := by
  unfold scoreAccountCandidates at hc
  have h2 := (mem_sortBy _ _ _).1 (List.mem_of_mem_take hc)
  obtain ⟨d, _, hf⟩ := List.mem_filterMap.1 h2
  dsimp only at hf
  split at hf
  · exact absurd hf (by simp)
  · split at hf
    · exact absurd hf (by simp)
    · next hrej =>
        split at hf
        · have hcand := Option.some.inj hf
          refine ⟨by rw [← hcand], ?_⟩
          rw [← hcand]
          exact fun hcontra => hrej (by simpa [lookupC] using hcontra)
        · exact absurd hf (by simp)

theorem mem_discover_returned {st : DMap} {tracked : List String}
    {mentioned : List AccountData} {now : Nat} {cand : DiscoveryCandidate}
    (hc : cand ∈ (discoverAccountsFromNetwork st tracked mentioned now).2) :
    cand.status = CStatus.suggested ∧
      ¬ (aLookup st cand.handle).map (·.status) = some CStatus.rejected := by
  unfold discoverAccountsFromNetwork at hc
  dsimp only at hc
  obtain ⟨c0, hc0, hfc⟩ := List.mem_map.1 hc
  have hprops := mem_scoreAccountCandidates hc0
  cases hlk : lookupC st c0.handle with
  | none =>
      rw [hlk] at hfc
      dsimp only at hfc
      rw [← hfc]
      exact hprops
  | some e =>
      rw [hlk] at hfc
      dsimp only at hfc
      rw [← hfc]
      exact hprops

theorem discover_lookup_of_not_returned (st : DMap) (tracked : List String)
    (mentioned : List AccountData) (now : Nat) (h : String)
    (hnr : ∀ cand ∈ (discoverAccountsFromNetwork st tracked mentioned now).2,
      cand.handle ≠ h) :
    lookupC (discoverAccountsFromNetwork st tracked mentioned now).1 h =
      (lookupC st h).map (pruneOne now) := by
  unfold discoverAccountsFromNetwork at hnr ⊢
  dsimp only at hnr ⊢
  simp only [lookupC, pruneCandidates] at hnr ⊢
  rw [aLookup_mapVal, aLookup_foldl_setC_ne _ _ _ hnr]

/-! ### Claim C2 — window self-cleaning -/

/-- Claim C2, counterexample.  A `canTweet` check at `now = 4000000` over a
stored list holding the single timestamp `0` — which is expired, since
`now - 0 ≥ 3600000` — returns the map unchanged: the expired timestamp is
still in the stored list after the check, refuting "after any check the list
retains only timestamps `t` with `now - t < windowMs`". -/
theorem C2_counterexample :
    (canTweet [("twitter:tweets", [0])] 100 4000000).2 = [("twitter:tweets", [0])] ∧
    (0 : Nat) ∈ getCalls (canTweet [("twitter:tweets", [0])] 100 4000000).2 "twitter:tweets" ∧
    ¬ ((4000000 : Nat) - 0 < 3600000) := by decide

/-- Claim C2 (amended): every capacity check (`checkLimit`, and hence
`canTweet`/`canReply`/the checks inside `waitForAnthropicSlot`) *counts* only
the timestamps `t` with `now - t < windowMs` — expired entries are ignored
for the capacity decision — but it does not remove them: the stored map is
returned unchanged, every stored timestamp survives every check, and
`recordCall` only appends, so expired timestamps persist until `reset()`. -/
theorem C2_window_counting_no_prune (m : TsMap) (k : String)
    (limit windowMs now : Nat) :
    ((checkLimit m k limit windowMs now).1 = true ↔
      inWindowCount m k windowMs now < limit)
    ∧ (checkLimit m k limit windowMs now).2 = m
    ∧ (∀ tweetsPerHour, canTweet m tweetsPerHour now =
        ((decide (inWindowCount m "twitter:tweets" 3600000 now < tweetsPerHour)), m))
    ∧ (∀ repliesPerHour, canReply m repliesPerHour now =
        ((decide (inWindowCount m "twitter:replies" 3600000 now < repliesPerHour)), m))
    ∧ getCalls (recordCall m k now) k = getCalls m k ++ [now]
    ∧ (∀ t, t ∈ getCalls m k →
        t ∈ getCalls (checkLimit m k limit windowMs now).2 k) := by
  refine ⟨?_, rfl, fun _ => rfl, fun _ => rfl, ?_, fun t ht => ht⟩
  · simp [checkLimit, inWindowCount]
  · simp [recordCall, getCalls, aLookup_assocSet]

/-- Witness for C2's amended theorem at a concrete state: a check over a
stored list with one fresh and one expired timestamp counts only the fresh
one, leaves the map unchanged, and the expired timestamp survives. -/
theorem C2_window_counting_no_prune_witness :
    ((checkLimit [("k", [0, 3900000])] "k" 1 3600000 4000000).1 = true ↔
      inWindowCount [("k", [0, 3900000])] "k" 3600000 4000000 < 1) ∧
    (0 : Nat) ∈ getCalls (checkLimit [("k", [0, 3900000])] "k" 1 3600000 4000000).2 "k" := by
  refine ⟨(C2_window_counting_no_prune [("k", [0, 3900000])] "k" 1 3600000 4000000).1, ?_⟩
  exact (C2_window_counting_no_prune [("k", [0, 3900000])] "k" 1 3600000 4000000).2.2.2.2.2
    0 (by decide)

/-! ### Claim C5 — the blocking wait can return without capacity -/

/-- Claim C5 fails on the code: with per-minute limit 2, after the benign
call history 0 ms, 61000 ms, 62000 ms (each admitted by a successful check at
its time), a `waitForAnthropicSlot` at `now = 70000` returns immediately
(`getWaitTime` is `max 0 (min(allStoredTimestamps) + windowMs - now + 100)`
over the never-pruned list, and the stale oldest timestamp `0` makes it 0),
yet the per-minute window still holds 2 ≥ 2 in-window calls — capacity has
not freed.  `checkLimit`'s own logging computes the wait from the *filtered*
oldest timestamp, so `getWaitTime` reading the unfiltered list contradicts
the code's own intent. -/
theorem C5_wait_returns_with_full_window :
    waitForAnthropicSlot
      [("anthropic:calls:min", [0, 61000, 62000]),
       ("anthropic:calls:hour", [0, 61000, 62000])] 2 10 70000 = 70000 ∧
    (checkLimit
      [("anthropic:calls:min", [0, 61000, 62000]),
       ("anthropic:calls:hour", [0, 61000, 62000])]
      "anthropic:calls:min" 2 60000 70000).1 = false ∧
    ¬ (inWindowCount
      [("anthropic:calls:min", [0, 61000, 62000]),
       ("anthropic:calls:hour", [0, 61000, 62000])]
      "anthropic:calls:min" 60000 70000 < 2) := by decide

/-! ### Claim C1 — circuit opening threshold -/

/-- Claim C1, counterexample.  With `failureThreshold = 2`, the run
fail–success–fail ends with the circuit `open`, although the two failures are
separated by a successful call (so the claim's "consecutive failures" count
never exceeds 1 and the claim predicts `closed`): in `createCircuitBreaker`,
a success while `closed` does not reset `failureCount`. -/
theorem C1_counterexample :
    (runBreaker 2 60000 initBreaker
      [(0, CallOutcome.failure), (1, CallOutcome.success (0 : Nat)),
       (2, CallOutcome.failure)]).state = CircuitState.opened := by decide

/-- Claim C1 (amended): for every breaker created by `createCircuitBreaker`
with threshold `F`, over any sequence of `execute` calls the state moves from
`closed` to `open` exactly when the *cumulative* number of failed calls since
creation reaches `F`, and no earlier; an intervening successful call does not
reset the count (`failureCount` is only reset by a successful half-open
trial or an explicit `reset`). -/
theorem C1_cumulative_failures_open (F R : Nat) (es : List (Nat × CallOutcome Nat)) :
    (failuresIn es < F →
      (runBreaker F R initBreaker es).state = CircuitState.closed ∧
      (runBreaker F R initBreaker es).failureCount = failuresIn es)
    ∧ (∀ t : Nat, failuresIn es + 1 = F →
      (runBreaker F R initBreaker (es ++ [(t, CallOutcome.failure)])).state =
        CircuitState.opened) := by
  constructor
  · intro h
    have := runBreaker_closed F R es initBreaker rfl (by simpa [initBreaker] using h)
    simpa [initBreaker] using this
  · intro t hF
    have h1 := runBreaker_closed F R es initBreaker rfl
      (by simp only [initBreaker]; omega)
    rw [runBreaker_append]
    have hst : (runBreaker F R initBreaker es).state = CircuitState.closed := h1.1
    have hfc : (runBreaker F R initBreaker es).failureCount = failuresIn es := by
      simpa [initBreaker] using h1.2
    simp only [runBreaker]
    unfold execute
    rw [if_neg (by rw [hst]; simp)]
    unfold tryCall
    dsimp only
    rw [hfc, if_pos (by omega)]

/-- Witness for C1's amended theorem at `F = 2`: one failure leaves the
circuit closed with `failureCount = 1`; a second failure then opens it. -/
theorem C1_cumulative_failures_open_witness :
    (runBreaker 2 60000 initBreaker
      [(0, (CallOutcome.failure : CallOutcome Nat))]).state = CircuitState.closed ∧
    (runBreaker 2 60000 initBreaker
      [(0, (CallOutcome.failure : CallOutcome Nat)), (5, CallOutcome.failure)]).state =
      CircuitState.opened := by
  have h := C1_cumulative_failures_open 2 60000 [(0, CallOutcome.failure)]
  exact ⟨(h.1 (by decide)).1, h.2 5 (by decide)⟩

/-! ### Claim C6 — open-state gating and the half-open trial -/

/-- Claim C6, counterexample.  With `resetTimeout = 10` and
`lastFailureTime = 0`, a call at `now = 10` — exactly `R` ms after the
failure, so "R ms have elapsed" — still returns the circuit-open sentinel
without invoking the operation, because the source requires
`timeSinceLastFailure > resetTimeoutMs` strictly. -/
theorem C6_counterexample :
    execute 1 10 ⟨1, 0, CircuitState.opened⟩ 10 (CallOutcome.success (42 : Nat)) =
      ⟨ExecResult.returned none, ⟨1, 0, CircuitState.opened⟩, false⟩ ∧
    (10 : Nat) - (0 : Nat) = 10 := by decide

/-- Claim C6 (amended): while a breaker is `open` and *at most* `R` ms have
elapsed since `lastFailureTime`, `execute` returns the `null` sentinel
without invoking the wrapped operation and leaves the state untouched; once
strictly more than `R` ms have elapsed, the single call is allowed through as
a half-open trial: a successful trial yields `closed` with `failureCount = 0`,
a failed trial re-throws and yields `open` with `lastFailureTime` refreshed
to the current time.  (`F ≤ failureCount` holds for every reachable open
state, since opening requires it and the count never decreases while open.) -/
theorem C6_open_gate_strict (F R : Nat) (b : Breaker) (now : Nat)
    (hst : b.state = CircuitState.opened) (hcnt : F ≤ b.failureCount) :
    (now - b.lastFailureTime ≤ R →
      ∀ o : CallOutcome Nat, execute F R b now o = ⟨ExecResult.returned none, b, false⟩)
    ∧ (R < now - b.lastFailureTime →
      (∀ v : Nat, execute F R b now (CallOutcome.success v) =
        ⟨ExecResult.returned (some v), ⟨0, b.lastFailureTime, CircuitState.closed⟩, true⟩)
      ∧ execute F R b now (CallOutcome.failure : CallOutcome Nat) =
        ⟨ExecResult.threw, ⟨b.failureCount + 1, now, CircuitState.opened⟩, true⟩) := by
  obtain ⟨fc, lf, st⟩ := b
  dsimp only at hcnt hst ⊢
  subst hst
  constructor
  · intro hle o
    have hnlt : ¬ R < now - lf := by omega
    simp [execute, hnlt]
  · intro hlt
    have hle1 : F ≤ fc + 1 := by omega
    refine ⟨fun v => ?_, ?_⟩
    · simp [execute, tryCall, hlt]
    · simp [execute, tryCall, hlt, hle1]

/-- Witness for C6's amended theorem: with `F = 1`, `R = 10`,
`lastFailureTime = 0`, a call at `now = 4` is rejected without a trial, and a
failing trial at `now = 11` re-opens the breaker with a refreshed
`lastFailureTime`. -/
theorem C6_open_gate_strict_witness :
    execute 1 10 ⟨1, 0, CircuitState.opened⟩ 4 (CallOutcome.success (7 : Nat)) =
      ⟨ExecResult.returned none, ⟨1, 0, CircuitState.opened⟩, false⟩ ∧
    execute 1 10 ⟨1, 0, CircuitState.opened⟩ 11 (CallOutcome.failure : CallOutcome Nat) =
      ⟨ExecResult.threw, ⟨2, 11, CircuitState.opened⟩, true⟩ := by
  refine ⟨(C6_open_gate_strict 1 10 ⟨1, 0, CircuitState.opened⟩ 4 rfl (by decide)).1
      (by decide) _,
    ((C6_open_gate_strict 1 10 ⟨1, 0, CircuitState.opened⟩ 11 rfl (by decide)).2
      (by decide)).2⟩

/-! ### Claim C3 — permanence of rejection -/

/-- Claim C3, counterexample.  `"h"` is discovered (cycle 1 at time 0), then
rejected; a cycle run 31 days later finds its `lastSeen` stale and
`pruneCandidates` overwrites `rejected` with `pruned`; the next cycle in
which `"h"` is mentioned again then returns it as a candidate and re-sets its
status to `suggested` — the identity is *not* permanently excluded from
rediscovery. -/
theorem C3_counterexample :
    ((lookupC (rejectAccount
        (discoverAccountsFromNetwork [] [] [⟨"h", 20, 200000, false, 0, 0, none⟩] 0).1
        "h") "h").map (·.status) = some CStatus.rejected) ∧
    ((discoverAccountsFromNetwork
        (discoverAccountsFromNetwork
          (rejectAccount
            (discoverAccountsFromNetwork [] [] [⟨"h", 20, 200000, false, 0, 0, none⟩] 0).1
            "h")
          [] [] (31 * dayMs)).1
        [] [⟨"h", 20, 200000, false, 0, 0, none⟩] (31 * dayMs + 1000)).2.map (·.handle) =
      ["h"]) ∧
    ((lookupC (discoverAccountsFromNetwork
        (discoverAccountsFromNetwork
          (rejectAccount
            (discoverAccountsFromNetwork [] [] [⟨"h", 20, 200000, false, 0, 0, none⟩] 0).1
            "h")
          [] [] (31 * dayMs)).1
        [] [⟨"h", 20, 200000, false, 0, 0, none⟩] (31 * dayMs + 1000)).1 "h").map
      (·.status) = some CStatus.suggested) := by decide

/-- Claim C3 (amended): while a candidate's status *remains* `rejected`, no
discovery cycle returns its handle or re-suggests it: the cycle's returned
list never contains the handle, and the stored entry is only ever changed by
`pruneCandidates` — it stays `rejected` whenever `now - lastSeen` is within
the decay window, and otherwise becomes `pruned` (never `suggested`).  Once
pruned, however, the handle is eligible for rediscovery again, so the
exclusion is not permanent. -/
theorem C3_rejected_excluded_while_rejected (st : DMap) (tracked : List String)
    (mentioned : List AccountData) (now : Nat) (h : String) (c : DiscoveryCandidate)
    (hc : lookupC st h = some c) (hr : c.status = CStatus.rejected) :
    (∀ cand ∈ (discoverAccountsFromNetwork st tracked mentioned now).2, cand.handle ≠ h)
    ∧ lookupC (discoverAccountsFromNetwork st tracked mentioned now).1 h =
        some (pruneOne now c)
    ∧ (pruneOne now c).status ≠ CStatus.suggested
    ∧ ((now : Int) - (c.lastSeen : Int) ≤ ((decayDays * dayMs : Nat) : Int) →
        (pruneOne now c).status = CStatus.rejected) := by
  have hne : ∀ cand ∈ (discoverAccountsFromNetwork st tracked mentioned now).2,
      cand.handle ≠ h := by
    intro cand hcand heq
    have hprops := mem_discover_returned hcand
    rw [heq] at hprops
    refine hprops.2 ?_
    rw [show aLookup st h = some c from hc]
    simp [hr]
  refine ⟨hne, ?_, ?_, ?_⟩
  · rw [discover_lookup_of_not_returned st tracked mentioned now h hne, hc]
    rfl
  · unfold pruneOne
    split
    · simp
    · simp [hr]
  · intro hle
    unfold pruneOne
    split
    · next hcond =>
        exfalso
        simp only [decayDays, dayMs] at hcond hle
        omega
    · exact hr

/-- Witness for C3's amended theorem at a concrete rejected candidate: a
cycle that re-mentions the handle 5 ms later leaves it `rejected` and does
not return it. -/
theorem C3_rejected_excluded_while_rejected_witness :
    lookupC (discoverAccountsFromNetwork
        [("h", (⟨"h", 55, "NARRATIVE", 0, 1, CStatus.rejected⟩ : DiscoveryCandidate))] []
        [⟨"h", 20, 200000, false, 0, 0, none⟩] 5).1 "h" =
      some (pruneOne 5 ⟨"h", 55, "NARRATIVE", 0, 1, CStatus.rejected⟩) ∧
    (pruneOne 5 (⟨"h", 55, "NARRATIVE", 0, 1, CStatus.rejected⟩ : DiscoveryCandidate)).status =
      CStatus.rejected := by
  have hmain := C3_rejected_excluded_while_rejected
    [("h", ⟨"h", 55, "NARRATIVE", 0, 1, CStatus.rejected⟩)] []
    [⟨"h", 20, 200000, false, 0, 0, none⟩] 5 "h"
    ⟨"h", 55, "NARRATIVE", 0, 1, CStatus.rejected⟩ (by decide) rfl
  exact ⟨hmain.2.1, hmain.2.2.2 (by decide)⟩

/-! ### Claim C7 — auto-promotion exactly at the confirmation threshold -/

/-- Claim C7: no discovery cycle ever sets a candidate to `approved` (so no
automatic promotion happens outside `autoApproveConfirmed`), and
`autoApproveConfirmed` approves a candidate exactly when it is `suggested`
with `confirmationCount ≥ confirmationRunsNeeded`; with
`confirmationRunsNeeded = 2`, an identity scoring above threshold in cycle 1
is `suggested` with `confirmationCount = 1` (and not auto-approved),
reappearing above threshold in cycle 2 gives `confirmationCount = 2`, and
`autoApproveConfirmed` then approves it. -/
theorem C7_auto_promotion :
    (∀ (st : DMap) (tracked : List String) (mentioned : List AccountData)
        (now : Nat) (h : String),
      (lookupC (discoverAccountsFromNetwork st tracked mentioned now).1 h).map (·.status) =
          some CStatus.approved →
        (lookupC st h).map (·.status) = some CStatus.approved)
    ∧ (∀ (st : DMap) (h : String) (c : DiscoveryCandidate), lookupC st h = some c →
        lookupC (autoApproveConfirmed st).1 h = some (approveOne c)
        ∧ ((approveOne c).status = CStatus.approved ↔
            (c.status = CStatus.approved ∨
              (c.status = CStatus.suggested ∧
                confirmationRunsNeeded ≤ c.confirmationCount))))
    ∧ ((lookupC (discoverAccountsFromNetwork [] []
          [⟨"h", 20, 200000, false, 0, 0, none⟩] 0).1 "h").map
        (fun c => (c.confirmationCount, c.status)) = some (1, CStatus.suggested))
    ∧ ((lookupC (autoApproveConfirmed (discoverAccountsFromNetwork [] []
          [⟨"h", 20, 200000, false, 0, 0, none⟩] 0).1).1 "h").map (·.status) =
        some CStatus.suggested)
    ∧ ((lookupC (discoverAccountsFromNetwork
          (autoApproveConfirmed (discoverAccountsFromNetwork [] []
            [⟨"h", 20, 200000, false, 0, 0, none⟩] 0).1).1 []
          [⟨"h", 20, 200000, false, 0, 0, none⟩] dayMs).1 "h").map
        (fun c => (c.confirmationCount, c.status)) = some (2, CStatus.suggested))
    ∧ ((autoApproveConfirmed (discoverAccountsFromNetwork
          (autoApproveConfirmed (discoverAccountsFromNetwork [] []
            [⟨"h", 20, 200000, false, 0, 0, none⟩] 0).1).1 []
          [⟨"h", 20, 200000, false, 0, 0, none⟩] dayMs).1).2 = ["h"])
    ∧ ((lookupC (autoApproveConfirmed (discoverAccountsFromNetwork
          (autoApproveConfirmed (discoverAccountsFromNetwork [] []
            [⟨"h", 20, 200000, false, 0, 0, none⟩] 0).1).1 []
          [⟨"h", 20, 200000, false, 0, 0, none⟩] dayMs).1).1 "h").map (·.status) =
        some CStatus.approved) := by
  refine ⟨?_, ?_, by decide, by decide, by decide, by decide, by decide⟩
  · intro st tracked mentioned now h happ
    unfold discoverAccountsFromNetwork at happ
    dsimp only at happ
    simp only [lookupC, pruneCandidates] at happ
    rw [aLookup_mapVal, Option.map_map] at happ
    rcases Option.map_eq_some'.1 happ with ⟨c1, hlk, hstat⟩
    simp only [Function.comp] at hstat
    rcases aLookup_foldl_setC_cases _ _ _ _ hlk with hmem | hold
    · obtain ⟨c0, hc0, hfc⟩ := List.mem_map.1 hmem
      have hsugg := (mem_scoreAccountCandidates hc0).1
      have hc1status : c1.status = CStatus.suggested := by
        cases hlk2 : aLookup st c0.handle <;> rw [hlk2] at hfc <;> dsimp only at hfc <;>
          rw [← hfc] <;> exact hsugg
      exfalso
      unfold pruneOne at hstat
      split at hstat
      · simp at hstat
      · rw [hc1status] at hstat
        cases hstat
    · have happr : c1.status = CStatus.approved := by
        unfold pruneOne at hstat
        split at hstat
        · simp at hstat
        · exact hstat
      simp [lookupC, hold, happr]
  · intro st h c hc
    constructor
    · simp only [autoApproveConfirmed, lookupC]
      rw [aLookup_mapVal]
      rw [show aLookup st h = some c from hc]
      rfl
    · by_cases hcond : (c.status = CStatus.suggested ∧
          confirmationRunsNeeded ≤ c.confirmationCount)
      · simp only [approveOne, if_pos hcond]
        simp [hcond]
      · simp only [approveOne, if_neg hcond]
        constructor
        · intro happr
          exact Or.inl happr
        · rintro (happr | hsug)
          · exact happr
          · exact absurd hsug hcond

/-- Witness for C7: part 1 applied at a state holding an `approved`
candidate untouched by an empty cycle, and part 2 applied at a `suggested`
candidate with `confirmationCount = 2`, which `autoApproveConfirmed`
approves. -/
theorem C7_auto_promotion_witness :
    (lookupC [("g", (⟨"g", 55, "NARRATIVE", 0, 1, CStatus.approved⟩ : DiscoveryCandidate))]
        "g").map (·.status) = some CStatus.approved ∧
    lookupC (autoApproveConfirmed
        [("h", (⟨"h", 55, "NARRATIVE", 0, 2, CStatus.suggested⟩ : DiscoveryCandidate))]).1
        "h" = some (approveOne ⟨"h", 55, "NARRATIVE", 0, 2, CStatus.suggested⟩) ∧
    (approveOne (⟨"h", 55, "NARRATIVE", 0, 2, CStatus.suggested⟩ : DiscoveryCandidate)).status =
      CStatus.approved := by
  have hmain := C7_auto_promotion
  refine ⟨hmain.1 [("g", ⟨"g", 55, "NARRATIVE", 0, 1, CStatus.approved⟩)] [] [] 0 "g"
      (by decide), ?_, ?_⟩
  · exact (hmain.2.1 [("h", ⟨"h", 55, "NARRATIVE", 0, 2, CStatus.suggested⟩)] "h"
      ⟨"h", 55, "NARRATIVE", 0, 2, CStatus.suggested⟩ (by decide)).1
  · exact ((hmain.2.1 [("h", ⟨"h", 55, "NARRATIVE", 0, 2, CStatus.suggested⟩)] "h"
      ⟨"h", 55, "NARRATIVE", 0, 2, CStatus.suggested⟩ (by decide)).2).2 (Or.inr ⟨rfl, by decide⟩)

/-! ### Claim C4 — consensus minimum and the confidence tier of the example -/

theorem mkSignal_accountCount (narrative : String) (d : NarrData) :
    (mkSignal narrative d).accountCount = d.accounts.length := rfl

/-- Claim C4, counterexample.  Six distinct identities, each with credibility
80, referencing topic `"x"` inside the 48-hour window yield a signal with
`avgCredibility = 80` and confidence `MEDIUM`, not `HIGH`: the source's tier
breakpoints are `HIGH` at `avgCredibility ≥ 85` and `MEDIUM` at `≥ 70`. -/
theorem C4_counterexample :
    ((detectConsensus
        (fun cat => if cat = "NARRATIVE" then
          Except.ok [⟨"a1", 80⟩, ⟨"a2", 80⟩, ⟨"a3", 80⟩, ⟨"a4", 80⟩, ⟨"a5", 80⟩, ⟨"a6", 80⟩]
          else Except.ok [])
        [⟨"a1", 1000, ["x"], "neutral"⟩, ⟨"a2", 1000, ["x"], "neutral"⟩,
         ⟨"a3", 1000, ["x"], "neutral"⟩, ⟨"a4", 1000, ["x"], "neutral"⟩,
         ⟨"a5", 1000, ["x"], "neutral"⟩, ⟨"a6", 1000, ["x"], "neutral"⟩]
        2000 48).map (fun s => (s.accountCount, s.avgCredibility, s.confidence)) =
      [(6, (80 : ℚ), Confidence.MEDIUM)]) ∧
    Confidence.MEDIUM ≠ Confidence.HIGH := by decide

/-- Claim C4 (amended): every signal `detectConsensus` emits has at least 5
distinct contributing identities (fewer — e.g. the 4-identity scenario —
yields no signal at all), and the 6-identity average-credibility-80 scenario
yields a signal whose confidence is `MEDIUM` (`HIGH` requires average
credibility ≥ 85). -/
theorem C4_consensus_minimum :
    (∀ (db : AccountDB) (tweets : List Tweet) (now timeWindowHours : Nat),
      (detectConsensus db tweets now timeWindowHours).all
        (fun s => decide (5 ≤ s.accountCount)) = true)
    ∧ (detectConsensus
        (fun cat => if cat = "NARRATIVE" then
          Except.ok [⟨"a1", 80⟩, ⟨"a2", 80⟩, ⟨"a3", 80⟩, ⟨"a4", 80⟩]
          else Except.ok [])
        [⟨"a1", 1000, ["x"], "neutral"⟩, ⟨"a2", 1000, ["x"], "neutral"⟩,
         ⟨"a3", 1000, ["x"], "neutral"⟩, ⟨"a4", 1000, ["x"], "neutral"⟩]
        2000 48 = [])
    ∧ ((detectConsensus
        (fun cat => if cat = "NARRATIVE" then
          Except.ok [⟨"a1", 80⟩, ⟨"a2", 80⟩, ⟨"a3", 80⟩, ⟨"a4", 80⟩, ⟨"a5", 80⟩, ⟨"a6", 80⟩]
          else Except.ok [])
        [⟨"a1", 1000, ["x"], "neutral"⟩, ⟨"a2", 1000, ["x"], "neutral"⟩,
         ⟨"a3", 1000, ["x"], "neutral"⟩, ⟨"a4", 1000, ["x"], "neutral"⟩,
         ⟨"a5", 1000, ["x"], "neutral"⟩, ⟨"a6", 1000, ["x"], "neutral"⟩]
        2000 48).map (fun s => s.confidence) = [Confidence.MEDIUM]) := by
  refine ⟨?_, by decide, by decide⟩
  intro db tweets now timeWindowHours
  rw [List.all_eq_true]
  intro s hs
  simp only [detectConsensus] at hs
  split at hs
  · cases hs
  · have hs2 := (mem_sortBy _ _ _).1 hs
    obtain ⟨p, _, hpf⟩ := List.mem_filterMap.1 hs2
    split at hpf
    · cases hpf
    · next hguard =>
        rw [← Option.some_inj.mp hpf, mkSignal_accountCount]
        simpa using Nat.le_of_not_lt hguard

/-! ### Claim C10 — default credibility of 50 -/

theorem credLoop_notFound (db : AccountDB) (handle : String) :
    ∀ cats : List String,
      (∀ cat ∈ cats, ∀ accs, db cat = Except.ok accs →
        accs.find? (fun a => strToLower a.handle == strToLower handle) = none) →
      credLoop db handle cats = 50 := by
  intro cats
  induction cats with
  | nil => intro _; rfl
  | cons cat rest ih =>
      intro h
      unfold credLoop
      cases hdb : db cat with
      | error e => rfl
      | ok accs =>
          have hfind := h cat (List.mem_cons_self _ _) accs hdb
          simp only [hfind]
          exact ih (fun c hc accs' h' => h c (List.mem_cons_of_mem _ hc) accs' h')

/-- Claim C10: in both the consensus computation (part_010) and the
narrative-shift computation (part_012), `getAccountCredibility` returns the
default 50 for an identity found in no category's account list, and also when
the account-list lookup throws; such an identity still contributes — with
credibility exactly 50 — to the average-credibility computation instead of
being skipped: four identities at credibility 90 plus one unknown identity
average to (4·90 + 50)/5 = 82, and the unknown identity appears among the
agreeing accounts. -/
theorem C10_default_credibility :
    (∀ (db : AccountDB) (handle : String),
      (∀ cat ∈ categories, ∀ accs, db cat = Except.ok accs →
        accs.find? (fun a => strToLower a.handle == strToLower handle) = none) →
      ConsensusSignals.getAccountCredibility db handle = 50 ∧
      NarrativeShifts.getAccountCredibility db handle = 50)
    ∧ (∀ (db : AccountDB) (handle : String), db "NARRATIVE" = Except.error () →
      ConsensusSignals.getAccountCredibility db handle = 50 ∧
      NarrativeShifts.getAccountCredibility db handle = 50)
    ∧ ((detectConsensus
        (fun cat => if cat = "TECHNICAL" then
          Except.ok [⟨"b1", 90⟩, ⟨"b2", 90⟩, ⟨"b3", 90⟩, ⟨"b4", 90⟩]
          else Except.ok [])
        [⟨"b1", 1000, ["y"], "bullish"⟩, ⟨"b2", 1000, ["y"], "bullish"⟩,
         ⟨"b3", 1000, ["y"], "bullish"⟩, ⟨"b4", 1000, ["y"], "bullish"⟩,
         ⟨"ghost", 1000, ["y"], "bullish"⟩]
        2000 48).map (fun s => (s.avgCredibility, s.accountsAgreeing)) =
      [((82 : ℚ), ["b1", "b2", "b3", "b4", "ghost"])]) := by
  refine ⟨?_, ?_, by decide⟩
  · intro db handle h
    exact ⟨credLoop_notFound db handle categories h, credLoop_notFound db handle categories h⟩
  · intro db handle hdb
    constructor <;>
      · show credLoop db handle categories = 50
        simp only [categories, credLoop, hdb]

/-- Witness for C10: the not-found case at a database with empty category
lists, and the thrown-lookup case at a database whose queries fail. -/
theorem C10_default_credibility_witness :
    ConsensusSignals.getAccountCredibility (fun _ => Except.ok []) "ghost" = 50 ∧
    NarrativeShifts.getAccountCredibility (fun _ => Except.error ()) "anyone" = 50 := by
  refine ⟨(C10_default_credibility.1 (fun _ => Except.ok []) "ghost" ?_).1,
          (C10_default_credibility.2.1 (fun _ => Except.error ()) "anyone" rfl).2⟩
  intro cat hcat accs h
  injection h with h2
  rw [← h2]
  rfl

/-! ### Claim C8 — retry exhaustion and early success -/

/-- Claim C8: for every wrapped operation and `maxAttempts = N`, if the
operation throws on every attempt then `executeWithRetry` invokes it exactly
`N` times, propagates no exception, and returns the terminal-failure result
`null`; if some attempt succeeds first at attempt `k ≤ N`, that attempt's
result is returned after exactly `k` invocations. -/
theorem C8_retry_terminal_null (α : Type) (outcomes : Nat → Except Unit α) (N : Nat) :
    ((∀ i, 1 ≤ i → i ≤ N → outcomes i = Except.error ()) →
      executeWithRetry outcomes N = (none, N))
    ∧ (∀ k v, 1 ≤ k → k ≤ N → outcomes k = Except.ok v →
      (∀ i, 1 ≤ i → i < k → outcomes i = Except.error ()) →
      executeWithRetry outcomes N = (some v, k)) := by
  constructor
  · intro h
    exact retryFrom_allFail outcomes N 1 (fun j hj => h (1 + j) (by omega) (by omega))
  · intro k v h1 h2 hok herr
    have hmain := retryFrom_firstOk outcomes v (k - 1) 1 N (by omega)
      (by rw [show 1 + (k - 1) = k by omega]; exact hok)
      (fun i hi => herr (1 + i) (by omega) (by omega))
    rw [show k - 1 + 1 = k by omega] at hmain
    exact hmain

/-- Witness for C8 at `N = 3`: an always-throwing operation is invoked
exactly 3 times and yields `null`; an operation succeeding on attempt 2
yields its value after exactly 2 invocations. -/
theorem C8_retry_terminal_null_witness :
    executeWithRetry (fun _ => (Except.error () : Except Unit Nat)) 3 = (none, 3) ∧
    executeWithRetry (fun i => if i = 2 then Except.ok 9 else (Except.error () : Except Unit Nat)) 3 =
      (some 9, 2) := by
  constructor
  · exact (C8_retry_terminal_null Nat (fun _ => Except.error ()) 3).1 (fun i _ _ => rfl)
  · exact (C8_retry_terminal_null Nat
        (fun i => if i = 2 then Except.ok 9 else Except.error ()) 3).2 2 9
      (by omega) (by omega) rfl
      (fun i hi1 hi2 => by
        have hi : i = 1 := by omega
        subst hi; rfl)

/-! ### Claim C9 — batch execution totals -/

theorem executeBatch_foldl_aux (maxA : Nat) (items : List (Nat → Except Unit Unit)) :
    ∀ acc : BatchResult,
      items.foldl (fun acc it =>
        match (executeWithRetry it maxA).1 with
        | none => { acc with failed := acc.failed + 1 }
        | some _ => { acc with succeeded := acc.succeeded + 1 }) acc =
      ⟨acc.succeeded + items.countP (fun it => (executeWithRetry it maxA).1.isSome),
       acc.failed + items.countP (fun it => (executeWithRetry it maxA).1.isNone),
       acc.errors⟩ := by
  induction items with
  | nil => intro acc; simp [List.countP_nil]
  | cons it items ih =>
      intro acc
      simp only [List.foldl_cons, List.countP_cons]
      cases hm : (executeWithRetry it maxA).1 with
      | none =>
          simp only [hm, ih]
          simp [BatchResult.mk.injEq]
          omega
      | some u =>
          simp only [hm, ih]
          simp [BatchResult.mk.injEq]
          omega

theorem countP_some_add_none (maxA : Nat) (items : List (Nat → Except Unit Unit)) :
    items.countP (fun it => (executeWithRetry it maxA).1.isSome) +
      items.countP (fun it => (executeWithRetry it maxA).1.isNone) = items.length := by
  induction items with
  | nil => simp
  | cons it items ih =>
      simp only [List.countP_cons, List.length_cons]
      cases hm : (executeWithRetry it maxA).1 <;> simp [hm] <;> omega

/-- Claim C9: for every item list and operation, `executeBatch` processes
every item (each one is counted exactly once, as a success when its retried
execution produced a result and as a failure when it produced `null`), so
`succeeded + failed = items.length`, and the returned `errors` array is
always empty — per-item error details are never reported. -/
theorem C9_batch_totals (maxAttempts : Nat) (items : List (Nat → Except Unit Unit)) :
    (executeBatch maxAttempts items).succeeded + (executeBatch maxAttempts items).failed =
      items.length
    ∧ (executeBatch maxAttempts items).errors = []
    ∧ (executeBatch maxAttempts items).succeeded =
        items.countP (fun it => (executeWithRetry it maxAttempts).1.isSome)
    ∧ (executeBatch maxAttempts items).failed =
        items.countP (fun it => (executeWithRetry it maxAttempts).1.isNone) := by
  have h := executeBatch_foldl_aux maxAttempts items ⟨0, 0, []⟩
  unfold executeBatch
  rw [h]
  refine ⟨?_, rfl, by simp, by simp⟩
  simpa using countP_some_add_none maxAttempts items

end DeciResearch
